import Mathlib

/-!
# Verification of the TourCraft tool-server connection lifecycle and stream pipeline

Shallow embedding of the `ChatAgent` Durable Object (music-trends variant of
`onStart` / `onChatMessage`), the message-normalization and tool-artifact
resolution steps, the tool-key canonicalization rule of the calculator
variant of `onChatMessage`, and the bounded tool-discovery poll loop.

Machine integers do not overflow in any of the embedded code paths
(counters are small), so generations, iteration indices and milliseconds
are modelled as `Nat`.
-/

namespace TourCraft

/-! ## Discovery poll loop

Embeds the inline `while (Date.now() - startTs < toolsTimeoutMs)` loop of
`onStart`: each iteration first compares the caller's captured generation
`connectGen` against the current value of `this.mcpConnectGeneration`
(modelled as `genAt i` at iteration `i`), then reads
`Object.keys(this.mcp.getAITools())` (modelled as `toolsAt i`), breaks if
non-empty, and otherwise sleeps `pollIntervalMs` before the next iteration.
The loop runs while `i * pollIntervalMs < toolsTimeoutMs`, i.e. for at most
`pollFuel` iterations.  `pollFrom genAt toolsAt connectGen fuel i tools`
returns the final `tools` value together with the iteration index at which
the loop exited. -/
def pollFrom (genAt : Nat → Nat) (toolsAt : Nat → List String) (connectGen : Nat) :
    Nat → Nat → List String → List String × Nat
  | 0, i, tools => (tools, i)
  | fuel + 1, i, tools =>
    if genAt i ≠ connectGen then (tools, i)
    else
      let tools2 := toolsAt i
      if tools2.isEmpty then pollFrom genAt toolsAt connectGen fuel (i + 1) tools2
      else (tools2, i)

/-- `toolsTimeoutMs = 8000` in `onStart`. -/
def toolsTimeoutMs : Nat := 8000

/-- `pollIntervalMs = 250` in `onStart`. -/
def pollIntervalMs : Nat := 250

/-- Number of loop iterations: the body runs for exactly those `i` with
`i * poll < timeout`, i.e. `⌈timeout / poll⌉` iterations. -/
def pollFuel (timeout poll : Nat) : Nat := (timeout + poll - 1) / poll

/-- After the loop, `onStart` reports success only when tools were found and
the generation counter still equals the captured one:
`Object.keys(tools).length > 0 && connectGen === this.mcpConnectGeneration`. -/
def discoveryReport (genAt : Nat → Nat) (toolsAt : Nat → List String)
    (connectGen fuel : Nat) : List String × Bool :=
  let r := pollFrom genAt toolsAt connectGen fuel 0 []
  (r.1, !r.1.isEmpty && (genAt r.2 == connectGen))

/-- The exit iteration of the poll loop advances by at most `fuel`. -/
theorem pollFrom_exit_le (genAt : Nat → Nat) (toolsAt : Nat → List String)
    (connectGen : Nat) :
    ∀ fuel i tools, (pollFrom genAt toolsAt connectGen fuel i tools).2 ≤ i + fuel := by
  intro fuel
  induction fuel with
  | zero => intro i tools; simp [pollFrom]
  | succ n ih =>
    intro i tools
    simp only [pollFrom]
    by_cases hg : genAt i ≠ connectGen
    · simp only [if_pos hg]; omega
    · rw [if_neg hg]
      by_cases ht : (toolsAt i).isEmpty
      · simpa [ht] using (ih (i + 1) (toolsAt i)).trans (by omega)
      · simp only [ht, Bool.false_eq_true, if_false]; omega

/-- If the tool server never exposes a tool up to iteration `k` and the loop
starts at `i ≤ k` with an empty accumulator, the final tool list is empty:
the loop either aborts on a generation mismatch, or reaches `k` (where the
generation differs) and aborts, or times out — in every case carrying `[]`. -/
theorem pollFrom_empty_of_superseded (genAt : Nat → Nat) (toolsAt : Nat → List String)
    (connectGen k : Nat) (hG : genAt k ≠ connectGen) :
    ∀ fuel i, i ≤ k → (∀ j, i ≤ j → j < k → toolsAt j = []) →
      (pollFrom genAt toolsAt connectGen fuel i []).1 = [] := by
  intro fuel
  induction fuel with
  | zero => intro i _ _; simp [pollFrom]
  | succ n ih =>
    intro i hik hT
    simp only [pollFrom]
    by_cases hg : genAt i ≠ connectGen
    · simp [if_pos hg]
    · have hgen : genAt i = connectGen := by
        by_contra hc; exact hg hc
      have hik' : i ≠ k := fun h => hG (h ▸ hgen)
      have hlt : i < k := lt_of_le_of_ne hik hik'
      have hti : toolsAt i = [] := hT i le_rfl hlt
      rw [if_neg hg]
      simp only [hti, List.isEmpty_nil, if_true]
      exact ih (i + 1) hlt (fun j hj hjk => hT j (by omega) hjk)

/-- If the tool server never responds at all, the accumulated tool list
stays empty through every iteration. -/
theorem pollFrom_all_empty (genAt : Nat → Nat) (toolsAt : Nat → List String)
    (connectGen : Nat) (hT : ∀ j, toolsAt j = []) :
    ∀ fuel i, (pollFrom genAt toolsAt connectGen fuel i []).1 = [] := by
  intro fuel
  induction fuel with
  | zero => intro i; simp [pollFrom]
  | succ n ih =>
    intro i
    simp only [pollFrom]
    by_cases hg : genAt i ≠ connectGen
    · simp [if_pos hg]
    · rw [if_neg hg]
      simp only [hT i, List.isEmpty_nil, if_true]
      exact ih (i + 1)

/-! ## ConnectionManager: the `onStart` connect cycle

Embeds the music-trends variant of `ChatAgent.onStart`.  The agent's fields
`isMcpConnecting` (single-flight flag) and `mcpConnectGeneration`
(generation counter), the set of registered MCP server ids
(`getMcpServers().servers`), and the visible tool keys
(`Object.keys(this.mcp.getAITools())`) form the state. -/

/-- Outcome of the best-effort `fetch(mcpUrl + "/health")` probe:
the response was ok, the response was not ok, or the fetch failed/threw. -/
inductive ProbeResult where
  | reachable
  | notOk
  | unreachable
deriving DecidableEq, Repr

/-- Environment of one `onStart` run: the health-probe outcome, the
`authUrl` returned by `addMcpServer`, and — for the discovery poll loop —
the generation counter and tool keys visible at each iteration. -/
structure ConnectEnv where
  probe : ProbeResult
  authUrl : Option String
  genAt : Nat → Nat
  toolsAt : Nat → List String

/-- Agent-instance state touched by `onStart`. -/
structure AgentState where
  isMcpConnecting : Bool
  mcpConnectGeneration : Nat
  servers : List String
  toolKeys : List String
deriving DecidableEq, Repr

/-- Observable outcome of an `onStart` run: the final state, whether
`addMcpServer` was called (a transport-level connect attempt was made),
whether the health probe produced a warning, and whether the run logged
"Connected ... MCP server" (tools found and the generation still current). -/
structure OnStartResult where
  state : AgentState
  connectAttempted : Bool
  healthWarned : Bool
  reportedConnected : Bool
deriving DecidableEq, Repr

/-- The synchronous prefix of `onStart`: if `this.isMcpConnecting` is set the
call returns immediately (`none`); otherwise it sets the flag and captures
`connectGen = ++this.mcpConnectGeneration`. -/
def onStartGuard (s : AgentState) : Option (AgentState × Nat) :=
  if s.isMcpConnecting then none
  else
    let g := s.mcpConnectGeneration + 1
    some ({ s with isMcpConnecting := true, mcpConnectGeneration := g }, g)

/-- `!healthResp || !healthResp.ok` (or the fetch threw) produces a
`console.warn`; a reachable, ok probe does not. -/
def healthWarn (p : ProbeResult) : Bool :=
  match p with
  | ProbeResult.reachable => false
  | ProbeResult.notOk => true
  | ProbeResult.unreachable => true

/-- Body of `onStart` once the single-flight guard has been passed:
early-return if tools already exist; otherwise remove every existing MCP
server and close/force-clear all MCP client connections, run the
best-effort health probe (warn on failure, never abort), call
`addMcpServer("music-trends", sseUrl, callbackHost)`, and — when no
authorization is pending — run the bounded discovery poll.  The
`finally` block clears `isMcpConnecting` on every path. -/
def onStartBody (s : AgentState) (connectGen : Nat) (env : ConnectEnv) (fuel : Nat) :
    OnStartResult :=
  if !s.toolKeys.isEmpty then
    { state := { s with isMcpConnecting := false }, connectAttempted := false,
      healthWarned := false, reportedConnected := false }
  else
    let s1 : AgentState := { s with servers := [], toolKeys := [] }
    let warned := healthWarn env.probe
    let s2 : AgentState := { s1 with servers := ["music-trends"] }
    match env.authUrl with
    | some _ =>
      { state := { s2 with isMcpConnecting := false }, connectAttempted := true,
        healthWarned := warned, reportedConnected := false }
    | none =>
      let r := pollFrom env.genAt env.toolsAt connectGen fuel 0 []
      { state := { s2 with isMcpConnecting := false, toolKeys := r.1 },
        connectAttempted := true, healthWarned := warned,
        reportedConnected := !r.1.isEmpty && (env.genAt r.2 == connectGen) }

/-- One full `onStart` call: guard, then body.  The guard's early `return`
sits inside the `try`, so the `finally { this.isMcpConnecting = false; }`
runs on the guarded-out path too: a duplicate call makes no connect
attempt, but it does clear the single-flight flag. -/
def runOnStart (s : AgentState) (env : ConnectEnv) (fuel : Nat) : OnStartResult :=
  match onStartGuard s with
  | none =>
    { state := { s with isMcpConnecting := false }, connectAttempted := false,
      healthWarned := false, reportedConnected := false }
  | some (s1, g) => onStartBody s1 g env fuel

/-! ## Normalization (`cleanupMessages`)

Embeds the `cleanupMessages` hook of `onChatMessage`:
`(messages || []).filter(Boolean).map(m => ({ ...m, parts:
Array.isArray(m.parts) ? m.parts.filter(Boolean) : m.parts }))`.
A possibly-null entry is an `Option`; a raw message's fields are `Option`s
because stored history can lack them — `filter(Boolean)` only tests the
entry itself, never its fields. -/

/-- A raw stored message part; every field may be absent. -/
structure RawPart where
  type : Option String
  text : Option String
  toolCallId : Option String
deriving DecidableEq, Repr

/-- A raw stored message; `parts` is `none` when the stored value is not an
array (the code leaves such a value untouched). -/
structure RawMessage where
  id : Option String
  role : Option String
  parts : Option (List (Option RawPart))
deriving DecidableEq, Repr

/-- The per-message spread `{ ...m, parts: Array.isArray(m.parts) ?
m.parts.filter(Boolean) : m.parts }`. -/
def cleanupMessage (m : RawMessage) : RawMessage :=
  { m with parts :=
      match m.parts with
      | some ps => some ((ps.filterMap (fun p => p)).map some)
      | none => none }

/-- `cleanupMessages`: drop the null/undefined entries, then clean each
remaining message. -/
def cleanupMessages (msgs : List (Option RawMessage)) : List RawMessage :=
  (msgs.filterMap (fun m => m)).map cleanupMessage

/-! ## Stream pipeline (`onChatMessage` execute body)

Embeds the normalized data model used after cleanup, the
`processToolCalls` scan, and the `createUIMessageStream` execute body of
the music-trends `onChatMessage`, with its cancellation checks.  Time is a
step counter: the `signal.aborted` reads happen at step 0 (the execute
entry check), one step per scanned part, and one step per model event. -/

/-- States of an AI-SDK tool UI part (`part.state`). -/
inductive PartState where
  | inputStreaming
  | inputAvailable
  | outputAvailable
  | outputError
deriving DecidableEq, Repr

/-- A normalized message part: plain text, or a tool UI part
(`isToolUIPart`) with its call id, tool name, output and state. -/
inductive MsgPart where
  | text (content : String)
  | toolPart (toolCallId : String) (toolName : String) (output : String) (state : PartState)
deriving DecidableEq, Repr

/-- A normalized message. -/
structure Msg where
  id : String
  role : String
  parts : List MsgPart
deriving DecidableEq, Repr

/-- Events written to the outbound UI message stream. -/
inductive OutEvent where
  | toolOutputAvailable (toolCallId : String) (output : String) (toolName : String)
  | textDelta (content : String)
  | done
deriving DecidableEq, Repr

/-- Per-part body of `processToolCalls`: a non-tool part is returned as is;
a tool part whose `state !== "output-available"` is returned as is; when the
output is available and `signal?.aborted` is not set at that step, a
`tool-output-available` event carrying `{toolCallId, output, toolName}` is
written.  Parts are scanned in order, one time step each; the scan returns
the processed parts, the timed writes, and the end time. -/
def processPartsTimed (sig : Nat → Bool) :
    Nat → List MsgPart → List MsgPart × List (Nat × OutEvent) × Nat
  | t, [] => ([], [], t)
  | t, p :: ps =>
    let r := processPartsTimed sig (t + 1) ps
    match p with
    | MsgPart.toolPart callId name out st =>
      if st = PartState.outputAvailable then
        if sig t then (p :: r.1, r.2.1, r.2.2)
        else (p :: r.1, (t, OutEvent.toolOutputAvailable callId out name) :: r.2.1, r.2.2)
      else (p :: r.1, r.2.1, r.2.2)
    | _ => (p :: r.1, r.2.1, r.2.2)

/-- `processToolCalls`: map over the messages, scan each message's parts,
and return `{ ...message, parts: processedParts }` for each, together with
the writes and the end time. -/
def processToolCalls (sig : Nat → Bool) :
    Nat → List Msg → List Msg × List (Nat × OutEvent) × Nat
  | t, [] => ([], [], t)
  | t, m :: ms =>
    let r1 := processPartsTimed sig t m.parts
    let r2 := processToolCalls sig r1.2.2 ms
    ({ m with parts := r1.1 } :: r2.1, r1.2.1 ++ r2.2.1, r2.2.2)

/-- Modelled from the spec: the model-generation collaborator is an
external black box (spec §1, §4.3 step 3) that is handed `abortSignal:
signal` by `streamText` and stops emitting events once the signal fires.
`modelEmit sig t evs` emits event `j` at time `t + j` while the signal is
unset, and emits nothing from the first set step on. -/
def modelEmit (sig : Nat → Bool) : Nat → List OutEvent → List (Nat × OutEvent)
  | _, [] => []
  | t, e :: es => if sig t then [] else (t, e) :: modelEmit sig (t + 1) es

/-- Result of one turn: the timed outbound events and the assistant message
persisted to the conversation state, if any. -/
structure TurnResult where
  events : List (Nat × OutEvent)
  persisted : Option Msg
deriving DecidableEq, Repr

/-- The execute body of `createUIMessageStream` in the music-trends
`onChatMessage`: `if (signal?.aborted) return;` at entry (step 0), then
`cleanupMessages` (pure, already applied to `history` here), then
`processToolCalls` with per-part abort checks, then
`if (!signal?.aborted) writer.merge(result.toUIMessageStream())` where
`streamText` receives `abortSignal: signal`.

Modelled from the spec for the persistence step: the hosting
`AIChatAgent` appends the finished assistant message via the `onFinish`
callback of `streamText`, which fires only on normal completion of the
model stream (spec §4.3 step 5, §5: "No partial assistant message is
persisted on cancellation"); completion is modelled as every model event
having been emitted. -/
def runTurn (sig : Nat → Bool) (history : List Msg) (modelEvents : List OutEvent)
    (assembled : Msg) : TurnResult :=
  if sig 0 then { events := [], persisted := none }
  else
    let r := processToolCalls sig 1 history
    if sig r.2.2 then { events := r.2.1, persisted := none }
    else
      let mEvs := modelEmit sig (r.2.2 + 1) modelEvents
      { events := r.2.1 ++ mEvs,
        persisted := if mEvs.length = modelEvents.length then some assembled else none }

/-! ## Tool-key canonicalization (calculator `onChatMessage`)

Embeds `Object.keys(allTools).find(k => /(^|_)add$/.test(k))` and the
analogous multiply lookup: the regex `(^|_)add$` accepts exactly the keys
equal to `"add"` or ending in `"_add"`, and `Array.prototype.find`
returns the first accepted key in registration order. -/

/-- `/(^|_)add$/.test(k)`: the regex accepts `k` exactly when `k` is
`"add"` or ends with the characters `"_add"`. -/
def matchesAddKey (k : String) : Bool :=
  k == "add" || ("_add".data).isSuffixOf k.data

/-- `/(^|_)multiply$/.test(k)`. -/
def matchesMultiplyKey (k : String) : Bool :=
  k == "multiply" || ("_multiply".data).isSuffixOf k.data

/-- The canonical tool-key mapping logged as `{ add: addKey, multiply:
multiplyKey }`: for each canonical name, the first raw key accepted by its
suffix rule. -/
def toolKeyMapping (keys : List String) : Option String × Option String :=
  (keys.find? matchesAddKey, keys.find? matchesMultiplyKey)

/-! ## Helper lemmas about the pipeline -/

/-- Specification-side description of the resolution step (§4.3 step 2):
the event a single part should yield — a `tool-output-available` event for
a `ToolResult` whose output is available, nothing for any other part. -/
def toolOutputEvent : MsgPart → Option OutEvent
  | MsgPart.toolPart callId name out st =>
    if st = PartState.outputAvailable
    then some (OutEvent.toolOutputAvailable callId out name)
    else none
  | _ => none

/-- The part scan returns every part unchanged. -/
theorem processPartsTimed_fst (sig : Nat → Bool) :
    ∀ ps t, (processPartsTimed sig t ps).1 = ps := by
  intro ps
  induction ps with
  | nil => intro t; rfl
  | cons p ps ih =>
    intro t
    cases p with
    | text c => simpa [processPartsTimed] using ih (t + 1)
    | toolPart callId name out st =>
      by_cases hst : st = PartState.outputAvailable
      · by_cases hs : sig t = true
        · simpa [processPartsTimed, hst, hs] using ih (t + 1)
        · simpa [processPartsTimed, hst, hs] using ih (t + 1)
      · simpa [processPartsTimed, hst] using ih (t + 1)

/-- `processToolCalls` returns the message list structurally unchanged. -/
theorem processToolCalls_fst (sig : Nat → Bool) :
    ∀ msgs t, (processToolCalls sig t msgs).1 = msgs := by
  intro msgs
  induction msgs with
  | nil => intro t; rfl
  | cons m ms ih =>
    intro t
    simp only [processToolCalls, processPartsTimed_fst, ih]

/-- With no cancellation, the events of the part scan are exactly the
spec-side events of the parts, in order. -/
theorem processPartsTimed_events_no_abort :
    ∀ ps t, ((processPartsTimed (fun _ => false) t ps).2.1).map Prod.snd
      = ps.filterMap toolOutputEvent := by
  intro ps
  induction ps with
  | nil => intro t; rfl
  | cons p ps ih =>
    intro t
    cases p with
    | text c => simpa [processPartsTimed, toolOutputEvent] using ih (t + 1)
    | toolPart callId name out st =>
      by_cases hst : st = PartState.outputAvailable
      · simpa [processPartsTimed, toolOutputEvent, hst] using ih (t + 1)
      · simpa [processPartsTimed, toolOutputEvent, hst] using ih (t + 1)

/-- With no cancellation, the events of `processToolCalls` are exactly the
spec-side events of all output-available tool parts, in order. -/
theorem processToolCalls_events_no_abort :
    ∀ msgs t, ((processToolCalls (fun _ => false) t msgs).2.1).map Prod.snd
      = (msgs.map fun m => m.parts.filterMap toolOutputEvent).flatten := by
  intro msgs
  induction msgs with
  | nil => intro t; rfl
  | cons m ms ih =>
    intro t
    simp only [processToolCalls, List.map_cons, List.map_append,
      processPartsTimed_events_no_abort, ih, List.flatten_cons]

/-- Every event written by the part scan was written at a step where the
signal was unset. -/
theorem processPartsTimed_events_sig_false (sig : Nat → Bool) :
    ∀ ps t p, p ∈ (processPartsTimed sig t ps).2.1 → sig p.1 = false := by
  intro ps
  induction ps with
  | nil => intro t p hp; simp [processPartsTimed] at hp
  | cons q qs ih =>
    intro t p hp
    cases q with
    | text c =>
      simp only [processPartsTimed] at hp
      exact ih (t + 1) p hp
    | toolPart callId name out st =>
      by_cases hst : st = PartState.outputAvailable
      · by_cases hs : sig t = true
        · simp only [processPartsTimed, hst, if_true, hs] at hp
          exact ih (t + 1) p hp
        · simp only [processPartsTimed, hst, if_true, hs, Bool.false_eq_true,
            if_false, List.mem_cons] at hp
          rcases hp with hp | hp
          · subst hp; simpa using hs
          · exact ih (t + 1) p hp
      · simp only [processPartsTimed, hst, if_false] at hp
        exact ih (t + 1) p hp

/-- Every event written by `processToolCalls` was written at a step where
the signal was unset. -/
theorem processToolCalls_events_sig_false (sig : Nat → Bool) :
    ∀ msgs t p, p ∈ (processToolCalls sig t msgs).2.1 → sig p.1 = false := by
  intro msgs
  induction msgs with
  | nil => intro t p hp; simp [processToolCalls] at hp
  | cons m ms ih =>
    intro t p hp
    simp only [processToolCalls, List.mem_append] at hp
    rcases hp with hp | hp
    · exact processPartsTimed_events_sig_false sig m.parts t p hp
    · exact ih _ p hp

/-- Every event the model collaborator emits is emitted at a step where the
signal was unset. -/
theorem modelEmit_events_sig_false (sig : Nat → Bool) :
    ∀ evs t p, p ∈ modelEmit sig t evs → sig p.1 = false := by
  intro evs
  induction evs with
  | nil => intro t p hp; simp [modelEmit] at hp
  | cons e es ih =>
    intro t p hp
    by_cases hs : sig t = true
    · simp [modelEmit, hs] at hp
    · simp only [modelEmit, hs, Bool.false_eq_true, if_false, List.mem_cons] at hp
      rcases hp with hp | hp
      · subst hp; simpa using hs
      · exact ih (t + 1) p hp

/-- The model stream completes (every event emitted) only if the signal
stayed unset throughout its emission window. -/
theorem modelEmit_complete (sig : Nat → Bool) :
    ∀ evs t, (modelEmit sig t evs).length = evs.length →
      ∀ j, j < evs.length → sig (t + j) = false := by
  intro evs
  induction evs with
  | nil => intro t _ j hj; simp at hj
  | cons e es ih =>
    intro t hlen j hj
    simp only [List.length_cons] at hj
    by_cases hs : sig t = true
    · simp [modelEmit, hs] at hlen
    · simp only [modelEmit, hs, Bool.false_eq_true, if_false,
        List.length_cons] at hlen
      cases j with
      | zero => simpa using hs
      | succ j' =>
        have := ih (t + 1) (by omega) j' (by omega)
        simpa [Nat.add_assoc, Nat.add_comm 1 j'] using this

/-! ## Claim theorems -/

/-- C2: a discovery wait started under generation `connectGen` compares the
captured generation against the current counter on every iteration of the
poll loop — whenever the loop reaches an iteration `i` at which the counter
differs, it aborts immediately at `i`, leaving the tool accumulator
untouched — and a superseded waiter (one whose generation is overtaken at
some iteration `k` before any tool was seen) never reports a successful
discovery or any tool list: `discoveryReport` yields `([], false)`. -/
theorem C2_generation_check_aborts_wait (genAt : Nat → Nat)
    (toolsAt : Nat → List String) (connectGen : Nat) :
    (∀ fuel i tools, genAt i ≠ connectGen →
        pollFrom genAt toolsAt connectGen (fuel + 1) i tools = (tools, i))
    ∧ (∀ fuel k, genAt k ≠ connectGen → (∀ j, j < k → toolsAt j = []) →
        discoveryReport genAt toolsAt connectGen fuel = ([], false)) := by
  constructor
  · intro fuel i tools h
    simp [pollFrom, if_pos h]
  · intro fuel k hG hT
    have h1 : (pollFrom genAt toolsAt connectGen fuel 0 []).1 = [] :=
      pollFrom_empty_of_superseded genAt toolsAt connectGen k hG fuel 0
        (Nat.zero_le k) (fun j _ hjk => hT j hjk)
    simp only [discoveryReport]
    rw [h1]
    simp

/-- Witness for C2: the counter was captured as 5 and advances to 6 at
iteration 2; the waiter aborts at iteration 2 carrying its stale
accumulator, and the full report is empty and unsuccessful. -/
def genAdvancesW : Nat → Nat := fun i => if i < 2 then 5 else 6

theorem C2_generation_check_aborts_wait_witness :
    pollFrom genAdvancesW (fun _ => []) 5 4 2 ["stale"] = (["stale"], 2)
    ∧ discoveryReport genAdvancesW (fun _ => []) 5 32 = ([], false) :=
  ⟨(C2_generation_check_aborts_wait genAdvancesW (fun _ => []) 5).1 3 2 ["stale"]
      (by decide),
   (C2_generation_check_aborts_wait genAdvancesW (fun _ => []) 5).2 32 2
      (by decide) (fun _ _ => rfl)⟩

/-- C4: the discovery poll loop always terminates; with the source's
8000 ms timeout and 250 ms interval it runs at most
`pollFuel 8000 250 = 32` iterations, so when the tool server never responds
it exits with an empty tool set after at most `timeout + pollInterval`
milliseconds of sleeping, and the `onStart` cycle records no tools and does
not report a successful connection: the agent proceeds tool-less. -/
theorem C4_discovery_poll_bounded (env : ConnectEnv) (s : AgentState) (g : Nat)
    (hT : ∀ i, env.toolsAt i = []) (hs : s.toolKeys = [])
    (ha : env.authUrl = none) :
    (pollFrom env.genAt env.toolsAt g (pollFuel toolsTimeoutMs pollIntervalMs) 0 []).1 = []
    ∧ (pollFrom env.genAt env.toolsAt g (pollFuel toolsTimeoutMs pollIntervalMs) 0 []).2
        * pollIntervalMs ≤ toolsTimeoutMs + pollIntervalMs
    ∧ (onStartBody s g env (pollFuel toolsTimeoutMs pollIntervalMs)).state.toolKeys = []
    ∧ (onStartBody s g env (pollFuel toolsTimeoutMs pollIntervalMs)).reportedConnected
        = false := by
  have hfuel : pollFuel toolsTimeoutMs pollIntervalMs = 32 := by decide
  have hempty : (pollFrom env.genAt env.toolsAt g
      (pollFuel toolsTimeoutMs pollIntervalMs) 0 []).1 = [] :=
    pollFrom_all_empty env.genAt env.toolsAt g hT _ 0
  have hexit : (pollFrom env.genAt env.toolsAt g
      (pollFuel toolsTimeoutMs pollIntervalMs) 0 []).2 ≤ 32 := by
    have := pollFrom_exit_le env.genAt env.toolsAt g
      (pollFuel toolsTimeoutMs pollIntervalMs) 0 []
    omega
  refine ⟨hempty, ?_, ?_, ?_⟩
  · have : (pollFrom env.genAt env.toolsAt g
        (pollFuel toolsTimeoutMs pollIntervalMs) 0 []).2 * pollIntervalMs
        ≤ 32 * pollIntervalMs := Nat.mul_le_mul_right _ hexit
    simp only [pollIntervalMs, toolsTimeoutMs] at this ⊢
    omega
  · simp only [onStartBody, hs, List.isEmpty_nil, Bool.not_true,
      Bool.false_eq_true, if_false, ha]
    rw [hempty]
  · simp only [onStartBody, hs, List.isEmpty_nil, Bool.not_true,
      Bool.false_eq_true, if_false, ha]
    rw [hempty]
    simp

/-- Witness for C4: a fresh post-guard state and an environment whose tool
server never responds. -/
def envNoAuthW : ConnectEnv :=
  { probe := ProbeResult.reachable, authUrl := none,
    genAt := fun _ => 1, toolsAt := fun _ => [] }

/-- A fresh agent state just after the single-flight guard of a first
connect: flag set, generation bumped to 1, nothing registered. -/
def postGuardStateW : AgentState :=
  { isMcpConnecting := true, mcpConnectGeneration := 1,
    servers := [], toolKeys := [] }

theorem C4_discovery_poll_bounded_witness :
    (pollFrom envNoAuthW.genAt envNoAuthW.toolsAt 1
        (pollFuel toolsTimeoutMs pollIntervalMs) 0 []).1 = []
    ∧ (pollFrom envNoAuthW.genAt envNoAuthW.toolsAt 1
        (pollFuel toolsTimeoutMs pollIntervalMs) 0 []).2
        * pollIntervalMs ≤ toolsTimeoutMs + pollIntervalMs
    ∧ (onStartBody postGuardStateW 1 envNoAuthW
        (pollFuel toolsTimeoutMs pollIntervalMs)).state.toolKeys = []
    ∧ (onStartBody postGuardStateW 1 envNoAuthW
        (pollFuel toolsTimeoutMs pollIntervalMs)).reportedConnected = false :=
  C4_discovery_poll_bounded envNoAuthW postGuardStateW 1 (fun _ => rfl) rfl rfl

/-- The state left by the synchronous prefix of a guarded-in `onStart`
call: flag set, generation bumped. -/
def afterGuard (s : AgentState) : AgentState :=
  { s with isMcpConnecting := true,
           mcpConnectGeneration := s.mcpConnectGeneration + 1 }

/-- A fresh agent state: flag unset, generation 0, nothing registered. -/
def freshStateW : AgentState :=
  { isMcpConnecting := false, mcpConnectGeneration := 0,
    servers := [], toolKeys := [] }

/-- The state left by a guarded-out duplicate `onStart` arriving while the
first attempt (generation 1) is in flight: the `finally` has cleared the
single-flight flag. -/
def flagClearedStateW : AgentState :=
  { isMcpConnecting := false, mcpConnectGeneration := 1,
    servers := [], toolKeys := [] }

/-- Environment seen by a third rapid `onStart` call: its own captured
generation is 2, tools never appear. -/
def envThirdCallW : ConnectEnv :=
  { probe := ProbeResult.reachable, authUrl := none,
    genAt := fun _ => 2, toolsAt := fun _ => [] }

/-- C1 (code bug): the claim — a second `connect` while the connecting flag
is set is a no-op, so at most one discovery attempt is ever in flight —
fails against the code.  The guard's early `return` is inside the `try`,
so `finally { this.isMcpConnecting = false; }` runs on the guarded-out
path: the duplicate call makes no connect attempt but clears the
single-flight flag (the state is not left untouched), and a third rapid
`connect` from the resulting state passes the guard and starts a second
discovery attempt (a second `addMcpServer`) while the first is still in
flight.  This evaluates the embedded `onStart` at that failing input. -/
theorem C1_duplicate_onStart_clears_flag :
    postGuardStateW.isMcpConnecting = true
    ∧ (runOnStart postGuardStateW envNoAuthW 3).connectAttempted = false
    ∧ (runOnStart postGuardStateW envNoAuthW 3).state = flagClearedStateW
    ∧ flagClearedStateW.isMcpConnecting = false
    ∧ (runOnStart flagClearedStateW envThirdCallW 3).connectAttempted = true := by
  decide

/-- C8: for every connect attempt that passes the single-flight guard and
finds no cached tools, the transport-level connect (`addMcpServer`) is
performed no matter what the health probe returned; a not-ok or unreachable
probe only produces a warning and never prevents the connect call. -/
theorem C8_health_probe_never_blocks_connect (s : AgentState) (env : ConnectEnv)
    (fuel : Nat) (hflag : s.isMcpConnecting = false) (htools : s.toolKeys = []) :
    (runOnStart s env fuel).connectAttempted = true
    ∧ (env.probe ≠ ProbeResult.reachable →
        (runOnStart s env fuel).healthWarned = true) := by
  have hbody : runOnStart s env fuel =
      onStartBody (afterGuard s) (s.mcpConnectGeneration + 1) env fuel := by
    simp [runOnStart, onStartGuard, afterGuard, hflag]
  rw [hbody]
  simp only [onStartBody, afterGuard, htools, List.isEmpty_nil, Bool.not_true,
    Bool.false_eq_true, if_false]
  constructor
  · cases env.authUrl <;> rfl
  · intro hp
    have hw : healthWarn env.probe = true := by
      cases hpr : env.probe
      · exact absurd hpr hp
      · rfl
      · rfl
    cases env.authUrl <;> simp [hw]

/-- Witness for C8: the probe is unreachable, yet the connect attempt is
made and the probe outcome is only a warning. -/
def envProbeDownW : ConnectEnv :=
  { probe := ProbeResult.unreachable, authUrl := none,
    genAt := fun _ => 1, toolsAt := fun _ => [] }

theorem C8_health_probe_never_blocks_connect_witness :
    (runOnStart freshStateW envProbeDownW 2).connectAttempted = true
    ∧ (runOnStart freshStateW envProbeDownW 2).healthWarned = true :=
  ⟨(C8_health_probe_never_blocks_connect freshStateW envProbeDownW 2 rfl rfl).1,
   (C8_health_probe_never_blocks_connect freshStateW envProbeDownW 2 rfl rfl).2
      (by decide)⟩

/-- C5: `processToolCalls` returns the message list structurally unchanged
(for every cancellation signal), and — when no cancellation is pending —
the events it writes to the outbound stream are exactly one
`tool-output-available` event, carrying the part's `{toolCallId, output,
toolName}`, for each tool part whose state is `output-available`, in
order; parts in any other state (pending input, streaming, error) and text
parts produce no event and no invocation. -/
theorem C5_process_tool_calls_exact (msgs : List Msg) (t : Nat) :
    (∀ sig : Nat → Bool, (processToolCalls sig t msgs).1 = msgs)
    ∧ ((processToolCalls (fun _ => false) t msgs).2.1).map Prod.snd
        = (msgs.map fun m => m.parts.filterMap toolOutputEvent).flatten :=
  ⟨fun sig => processToolCalls_fst sig msgs t,
   processToolCalls_events_no_abort msgs t⟩

/-- C6, counterexample: `cleanupMessages` does not drop a message that is
missing its required `id` and `role` fields, nor a part missing all of its
variant fields — present-but-malformed entries pass through unchanged,
contradicting "drops every Message and every MessagePart that fails
structural validation (missing a required field)". -/
theorem C6_counterexample_missing_fields_kept :
    cleanupMessages [some { id := none, role := none, parts := some [] }]
      = [{ id := none, role := none, parts := some [] }]
    ∧ ({ id := none, role := none, parts := some [] } : RawMessage).id = none
    ∧ cleanupMessages
        [some { id := some "m1", role := some "user",
                parts := some [some { type := none, text := none,
                                      toolCallId := none }] }]
      = [{ id := some "m1", role := some "user",
           parts := some [some { type := none, text := none,
                                 toolCallId := none }] }] := by
  refine ⟨rfl, rfl, rfl⟩

/-- C6, amended: the normalization step drops exactly the null/undefined
messages and, inside each surviving message with an array of parts, the
null/undefined parts; it never raises an error, and it performs no field
validation — a message or part that is present but missing required fields
is kept (the message otherwise unchanged). -/
theorem C6_amended_nullish_only_dropped (msgs : List (Option RawMessage))
    (m : RawMessage) :
    (some m ∈ msgs → cleanupMessage m ∈ cleanupMessages msgs)
    ∧ (cleanupMessages msgs).length = (msgs.filterMap (fun x => x)).length
    ∧ (m.parts = none → cleanupMessage m = m) := by
  refine ⟨?_, ?_, ?_⟩
  · intro hm
    exact List.mem_map_of_mem cleanupMessage
      (List.mem_filterMap.mpr ⟨some m, hm, rfl⟩)
  · simp [cleanupMessages]
  · intro hp
    cases m with
    | mk mid mrole mparts =>
      simp only at hp
      simp [cleanupMessage, hp]

/-- Witness for C6 (amended claim): a message with no fields at all,
stored next to a null entry, survives normalization unchanged while the
null entry is dropped. -/
def emptyRawMessageW : RawMessage := { id := none, role := none, parts := none }

theorem C6_amended_nullish_only_dropped_witness :
    cleanupMessage emptyRawMessageW ∈
      cleanupMessages [some emptyRawMessageW, none]
    ∧ (cleanupMessages [some emptyRawMessageW, none]).length
        = ([some emptyRawMessageW, none].filterMap
            (fun x : Option RawMessage => x)).length
    ∧ cleanupMessage emptyRawMessageW = emptyRawMessageW :=
  have h := C6_amended_nullish_only_dropped [some emptyRawMessageW, none]
    emptyRawMessageW
  ⟨h.1 (by decide), h.2.1, h.2.2 rfl⟩

/-- The two tool sets of one calculator `onChatMessage` turn: `addKey` and
`multiplyKey` are looked up once from the raw `getAITools()` keys and only
logged (`console.log("🔗 Tool key mapping", ...)`), while the `tools:`
option of `streamText` receives the raw key set spread through unchanged
(`const allTools = { ...this.mcp.getAITools() }`). -/
structure TurnToolSets where
  logged : Option String × Option String
  givenToModel : List String
deriving DecidableEq, Repr

/-- Tool-set handling of one turn, from the raw keys in registration
order. -/
def onChatMessageToolSets (rawKeys : List String) : TurnToolSets :=
  { logged := toolKeyMapping rawKeys, givenToModel := rawKeys }

/-- C7, counterexample: two servers' raw keys `"calc_add"` and
`"music_add"` both canonicalize to `add`, yet the tool set given to the
model keeps both — the canonical name occurs twice in the model's snapshot
and the later key is not dropped; only the logged mapping deduplicates. -/
theorem C7_counterexample_raw_set_reaches_model :
    (onChatMessageToolSets ["calc_add", "music_add"]).givenToModel
      = ["calc_add", "music_add"]
    ∧ ((onChatMessageToolSets ["calc_add", "music_add"]).givenToModel).countP
        matchesAddKey = 2
    ∧ "music_add" ∈ (onChatMessageToolSets ["calc_add", "music_add"]).givenToModel
    ∧ (onChatMessageToolSets ["calc_add", "music_add"]).logged.1
        = some "calc_add" := by
  decide

/-- C7, amended: canonical names are computed by the fixed suffix rule
(`/(^|_)add$/`: the key is `"add"` or ends in `"_add"`); the per-turn
canonical mapping binds each canonical name to at most one raw key — the
earliest-registered matching key, every later match ignored, and any bound
key satisfies the rule and comes from the key list — but this mapping is
only logged: the tool set given to the model is the raw key set unchanged,
with no deduplication. -/
theorem C7_first_wins_mapping_logged_only (xs ys : List String) (k : String)
    (h1 : ∀ x ∈ xs, matchesAddKey x = false) (h2 : matchesAddKey k = true) :
    (onChatMessageToolSets (xs ++ k :: ys)).logged.1 = some k
    ∧ (∀ keys k', (onChatMessageToolSets keys).logged.1 = some k' →
        matchesAddKey k' = true ∧ k' ∈ keys)
    ∧ (∀ keys, (onChatMessageToolSets keys).givenToModel = keys) := by
  refine ⟨?_, ?_, fun keys => rfl⟩
  · simp only [onChatMessageToolSets, toolKeyMapping]
    induction xs with
    | nil => simp [List.find?_cons_of_pos, h2]
    | cons x xs ih =>
      have hx : matchesAddKey x = false := h1 x (List.mem_cons_self x xs)
      rw [List.cons_append, List.find?_cons_of_neg _ (by simp [hx])]
      exact ih (fun y hy => h1 y (List.mem_cons_of_mem x hy))
  · intro keys k' hk
    simp only [onChatMessageToolSets, toolKeyMapping] at hk
    exact ⟨List.find?_some hk, List.mem_of_find?_eq_some hk⟩

/-- Witness for C7 (amended): two servers' keys in registration order;
both `"calc_add"` and the later `"music_add"`/`"add"` canonicalize to
`add`; the earliest-registered `"calc_add"` is the logged binding, while
the model receives all four raw keys. -/
theorem C7_first_wins_mapping_logged_only_witness :
    (onChatMessageToolSets
        ["calc_multiply", "calc_add", "music_add", "add"]).logged.1
      = some "calc_add"
    ∧ (onChatMessageToolSets
        ["calc_multiply", "calc_add", "music_add", "add"]).givenToModel
      = ["calc_multiply", "calc_add", "music_add", "add"] :=
  have h := C7_first_wins_mapping_logged_only ["calc_multiply"]
    ["music_add", "add"] "calc_add" (by decide) (by decide)
  ⟨h.1, h.2.2 _⟩

/-- C3: with a monotone cancellation signal (once set, it stays set), no
event whatsoever is written to the outbound stream at or after the step at
which the signal is set — the execute entry check, the per-part checks of
the tool-artifact resolution step, the merge guard and the abort-aware
model stream each no-op — and if the signal is set at any step up to the
end of the model stream (so the turn cannot have completed normally), no
assistant message is persisted to the conversation state. -/
theorem C3_cancellation_no_further_writes (sig : Nat → Bool) (history : List Msg)
    (modelEvents : List OutEvent) (assembled : Msg)
    (hmono : ∀ i j, i ≤ j → sig i = true → sig j = true) :
    (∀ p ∈ (runTurn sig history modelEvents assembled).events, sig p.1 = false)
    ∧ (∀ t, t ≤ (processToolCalls sig 1 history).2.2 + modelEvents.length →
        sig t = true →
        (runTurn sig history modelEvents assembled).persisted = none) := by
  by_cases h0 : sig 0 = true
  · constructor
    · intro p hp
      simp [runTurn, h0] at hp
    · intro t _ _
      simp [runTurn, h0]
  · by_cases h1 : sig (processToolCalls sig 1 history).2.2 = true
    · constructor
      · intro p hp
        simp only [runTurn, h0, Bool.false_eq_true, if_false, h1, if_true] at hp
        exact processToolCalls_events_sig_false sig history 1 p hp
      · intro t _ _
        simp [runTurn, h0, h1]
    · constructor
      · intro p hp
        simp only [runTurn, h0, Bool.false_eq_true, if_false, h1, if_false] at hp
        rcases List.mem_append.mp hp with hp | hp
        · exact processToolCalls_events_sig_false sig history 1 p hp
        · exact modelEmit_events_sig_false sig modelEvents _ p hp
      · intro t ht hsig
        simp only [runTurn, h0, Bool.false_eq_true, if_false, h1]
        by_cases hlen : (modelEmit sig ((processToolCalls sig 1 history).2.2 + 1)
            modelEvents).length = modelEvents.length
        · exfalso
          by_cases htle : t ≤ (processToolCalls sig 1 history).2.2
          · exact h1 (hmono t _ htle hsig)
          · have hj : t - (processToolCalls sig 1 history).2.2 - 1
                < modelEvents.length := by omega
            have hfalse := modelEmit_complete sig modelEvents
              ((processToolCalls sig 1 history).2.2 + 1) hlen _ hj
            have heq : (processToolCalls sig 1 history).2.2 + 1
                + (t - (processToolCalls sig 1 history).2.2 - 1) = t := by omega
            rw [heq, hsig] at hfalse
            exact Bool.noConfusion hfalse
        · simp [hlen]

/-- Witness for C3: the signal fires at step 2 — after the execute entry
check and the scan of the single text part, but before the model's
`text-delta` and `done` events — so the assistant message is not
persisted. -/
def sigFiresAt2W : Nat → Bool := fun t => decide (2 ≤ t)

def historyW : List Msg :=
  [{ id := "m1", role := "user", parts := [MsgPart.text "hello"] }]

def modelEventsW : List OutEvent :=
  [OutEvent.textDelta "partial", OutEvent.done]

def assembledW : Msg :=
  { id := "a1", role := "assistant", parts := [MsgPart.text "partial"] }

theorem C3_cancellation_no_further_writes_witness :
    (runTurn sigFiresAt2W historyW modelEventsW assembledW).persisted = none :=
  (C3_cancellation_no_further_writes sigFiresAt2W historyW modelEventsW assembledW
      (fun i j hij hi => by
        simp only [sigFiresAt2W, decide_eq_true_eq] at hi ⊢
        omega)).2
    2 (by decide) (by decide)

end TourCraft
